import Mathlib

deriving instance DecidableEq for Except

set_option allowUnsafeReducibility true

attribute [semireducible] Rat.mul Rat.add Rat.sub Rat.inv Rat.ofScientific

/-!
Verification development for the Sleven caps-store backend.

Shallow embedding of the repository's services, translated from
`src/main.py` (the reference demo variant: catalog, identity, order
placement), `src/main_production.py` (whose `register`/`login`/`get_caps`/
`create_order` bodies are line-for-line identical to `src/main.py`; its
`hash_password`/`verify_password`/`get_current_user` differ and are embedded
separately), and `src/seed_data.py` (the six-product seed).

Monetary values (`Float` columns in the source) are embedded as `ℚ`;
quantities (`Integer` columns / pydantic `int` fields) as `Int`, since the
source accepts and stores negative values there; row identifiers as `Nat`.
The relational store is a record of row lists, each list kept in insertion
(ascending-id / rowid) order, which is the order the SQLite backend returns
rows in for the unordered `SELECT`s the source issues.  Display-only columns
that no logic reads (`name_ar`, `description`, `description_ar`, `image_url`,
`brand`, `color`, `size`, `created_at`, `is_active`) are omitted from the row
records.
-/

namespace CapsStore

/-- A row of the `caps` table (`class Cap` in `src/main.py`). -/
structure Cap where
  id : Nat
  name : String
  price : ℚ
  category : String
  stock_quantity : Int
  is_featured : Bool
deriving DecidableEq, Repr

/-- A row of the `users` table (`class User` in `src/main.py`). -/
structure User where
  id : Nat
  email : String
  hashed_password : String
  full_name : String
  phone : Option String
  address : Option String
deriving DecidableEq, Repr

/-- A row of the `orders` table (`class Order` in `src/main.py`). -/
structure Order where
  id : Nat
  user_id : Nat
  total_amount : ℚ
  status : String
  shipping_address : String
  phone : String
deriving DecidableEq, Repr

/-- A row of the `order_items` table (`class OrderItem` in `src/main.py`). -/
structure OrderItem where
  id : Nat
  order_id : Nat
  cap_id : Nat
  quantity : Int
  price : ℚ
deriving DecidableEq, Repr

/-- The relational store: the four tables of the schema, each in
ascending-id insertion order. -/
structure DB where
  users : List User
  caps : List Cap
  orders : List Order
  order_items : List OrderItem
deriving DecidableEq, Repr

/-- A raised `fastapi.HTTPException`: status code plus detail message. -/
structure HTTPException where
  status_code : Nat
  detail : String
deriving DecidableEq, Repr

/-- Request model `OrderItemCreate` (pydantic): a cart line. The source
declares `quantity : int` with no positivity constraint, so it is `Int`. -/
structure OrderItemCreate where
  cap_id : Nat
  quantity : Int
deriving DecidableEq, Repr

/-- Request model `OrderCreate` (pydantic). -/
structure OrderCreate where
  items : List OrderItemCreate
  shipping_address : String
  phone : String
deriving DecidableEq, Repr

/-- Request model `UserCreate` (pydantic). -/
structure UserCreate where
  email : String
  password : String
  full_name : String
  phone : Option String
  address : Option String
deriving DecidableEq, Repr

/-- Request model `UserLogin` (pydantic). -/
structure UserLogin where
  email : String
  password : String
deriving DecidableEq, Repr

/-- `db.query(Cap).filter(Cap.id == cap_id).first()`: the first row of the
`caps` table whose id matches. -/
def findCap (db : DB) (cap_id : Nat) : Option Cap :=
  db.caps.find? (fun c => c.id == cap_id)

/-- One entry of `create_order`'s in-memory `order_items` list
(`{"cap_id": .., "quantity": .., "price": .., "cap": ..}`). The `cap` field
is the ORM object captured during validation. -/
structure PendingItem where
  cap_id : Nat
  quantity : Int
  price : ℚ
  cap : Cap
deriving DecidableEq, Repr

/-- The validation loop of `create_order` (`src/main.py` lines 255-272): for
each cart line, look the cap up, raise 404 if absent, raise 400 if
`cap.stock_quantity < item.quantity`; otherwise accumulate
`cap.price * item.quantity` into `total_amount` and append the pending item.
No session mutation occurs in this loop. -/
def create_order_validate (db : DB) : List OrderItemCreate →
    Except HTTPException (ℚ × List PendingItem)
  | [] => .ok (0, [])
  | item :: rest =>
    match findCap db item.cap_id with
    | none => .error ⟨404, "Cap " ++ toString item.cap_id ++ " not found"⟩
    | some cap =>
      if cap.stock_quantity < item.quantity then
        .error ⟨400, "Not enough stock for " ++ cap.name⟩
      else
        match create_order_validate db rest with
        | .error e => .error e
        | .ok (total, pend) =>
          .ok (cap.price * (item.quantity : ℚ) + total,
               ⟨cap.id, item.quantity, cap.price, cap⟩ :: pend)

/-- The `OrderItem` rows inserted by `create_order`'s commit loop, with
autoincrement ids starting at `next_id`. -/
def mkItems (next_id order_id : Nat) : List PendingItem → List OrderItem
  | [] => []
  | p :: ps =>
    ⟨next_id, order_id, p.cap_id, p.quantity, p.price⟩ :: mkItems (next_id + 1) order_id ps

/-- Effect of `cap.stock_quantity -= quantity` on the `caps` table at flush:
the row with the given id is decremented. -/
def decStock (caps : List Cap) (cap_id : Nat) (q : Int) : List Cap :=
  caps.map (fun c =>
    if c.id == cap_id then { c with stock_quantity := c.stock_quantity - q } else c)

/-- The commit pass of `create_order` (`src/main.py` lines 274-297): insert
the `Order` row (status `"pending"`, autoincrement id), insert one
`OrderItem` row per pending entry, and decrement each referenced cap's
stock by the ordered quantity (the ORM identity map makes decrements for
repeated cap ids accumulate on the same row). -/
def create_order_commit (db : DB) (current_user : User) (order : OrderCreate)
    (total_amount : ℚ) (pend : List PendingItem) :
    DB × Order × List OrderItem :=
  let oid := db.orders.length + 1
  let db_order : Order :=
    ⟨oid, current_user.id, total_amount, "pending", order.shipping_address, order.phone⟩
  let new_items := mkItems (db.order_items.length + 1) oid pend
  let caps1 := pend.foldl (fun cs p => decStock cs p.cap_id p.quantity) db.caps
  ({ db with
      caps := caps1
      orders := db.orders ++ [db_order]
      order_items := db.order_items ++ new_items },
   db_order, new_items)

/-- `create_order` (`POST /api/orders`, `src/main.py` lines 253-312):
validation pass, then commit pass. An exception raised during validation
escapes before any session mutation. Returns the new store, the created
`Order` row, and the created `OrderItem` rows. -/
def create_order (db : DB) (current_user : User) (order : OrderCreate) :
    Except HTTPException (DB × Order × List OrderItem) :=
  match create_order_validate db order.items with
  | .error e => .error e
  | .ok (total_amount, pend) =>
    .ok (create_order_commit db current_user order total_amount pend)

/-- The store after a `create_order` call: unchanged when the call raised
(no mutation precedes a raise in the source), otherwise the committed
store. -/
def create_order_db (db : DB) (current_user : User) (order : OrderCreate) : DB :=
  match create_order db current_user order with
  | .error _ => db
  | .ok r => r.1

/-- Models the external primitive `hashlib.sha256(s).hexdigest()` used by
`hash_password` / `verify_password` / `create_access_token` in
`src/main_production.py`. The spec places the hashing-primitive choice out
of scope (an external collaborator), so the digest is modelled as an
injective computable function of the input string; every property proved
below depends only on determinism and injectivity, which the real digest
provides up to collision resistance. -/
def sha256_hex (s : String) : String :=
  "sha256:" ++ s

/-- `hash_password` (`src/main_production.py` lines 194-195): the sha256 hex
digest of the password. (`src/main.py` instead delegates to bcrypt, an
external primitive with the same verify-what-you-hashed contract.) -/
def hash_password (password : String) : String :=
  sha256_hex password

/-- `verify_password` (`src/main_production.py` lines 197-198): re-digest
the candidate password and compare with the stored hash. -/
def verify_password (password : String) (hashed : String) : Bool :=
  sha256_hex password == hashed

/-- `register` (`POST /api/auth/register`, `src/main.py` lines 205-222,
identical in `src/main_production.py` lines 318-335): 400 if a user row
with the same email exists, otherwise insert a user with the hashed
password and return it. -/
def register (db : DB) (user : UserCreate) : Except HTTPException (DB × User) :=
  match db.users.find? (fun u => u.email == user.email) with
  | some _ => .error ⟨400, "Email already registered"⟩
  | none =>
    let db_user : User :=
      ⟨db.users.length + 1, user.email, hash_password user.password,
       user.full_name, user.phone, user.address⟩
    .ok ({ db with users := db.users ++ [db_user] }, db_user)

/-- The store after a `register` call: unchanged when the call raised. -/
def register_db (db : DB) (user : UserCreate) : DB :=
  match register db user with
  | .error _ => db
  | .ok r => r.1

/-- `create_access_token` (`src/main_production.py` lines 200-204): the
sha256 hex digest of the JSON payload `{sub, exp, data}`. The expiry
timestamp is a parameter here (the source takes it from the clock); the
digest is unkeyed and is never decoded or verified anywhere in the
source. -/
def create_access_token (sub : String) (exp : String) : String :=
  sha256_hex ("data:sub:" ++ sub ++ ";exp:" ++ exp)

/-- `login` (`POST /api/auth/login`, `src/main.py` lines 224-231, identical
logic in `src/main_production.py` lines 337-348): look the user up by
email; 401 if absent or the password does not verify; otherwise issue an
access token for the user's email. `exp` is the expiry timestamp the source
reads from the clock. -/
def login (db : DB) (user : UserLogin) (exp : String) :
    Except HTTPException (String × User) :=
  match db.users.find? (fun u => u.email == user.email) with
  | none => .error ⟨401, "Invalid credentials"⟩
  | some db_user =>
    if verify_password user.password db_user.hashed_password then
      .ok (create_access_token db_user.email exp, db_user)
    else
      .error ⟨401, "Invalid credentials"⟩

/-- `get_current_user` of the production variant
(`src/main_production.py` lines 206-211): the bearer token is accepted but
never inspected; the endpoint returns `db.query(User).first()` — the first
row of the `users` table — and raises 401 only when the table is empty. -/
def get_current_user_prod (db : DB) (token : String) : Except HTTPException User :=
  let _ := token
  match db.users.head? with
  | some user => .ok user
  | none => .error ⟨401, "User not found"⟩

/-- `get_caps` (`GET /api/caps`, `src/main.py` lines 233-239): optional
exact-match category filter (skipped for `None` and for the empty string,
both falsy in `if category:`), then `OFFSET skip LIMIT limit` over the
table's rowid order. -/
def get_caps (db : DB) (skip : Nat) (limit : Nat) (category : Option String) :
    List Cap :=
  let query : List Cap :=
    match category with
    | some c => if c == "" then db.caps else db.caps.filter (fun cap => cap.category == c)
    | none => db.caps
  (query.drop skip).take limit

/-- The six catalog rows inserted by `seed_caps` (`src/seed_data.py`
lines 17-103), with their autoincrement ids 1..6; display-only columns
omitted as in the rest of the embedding. -/
def caps_data : List Cap :=
  [⟨1, "Classic Baseball Cap", 4599 / 100, "baseball", 50, true⟩,
   ⟨2, "Luxury Leather Cap", 12999 / 100, "luxury", 25, true⟩,
   ⟨3, "Snapback Cap", 3999 / 100, "snapback", 75, false⟩,
   ⟨4, "Trucker Hat", 3299 / 100, "trucker", 60, false⟩,
   ⟨5, "Beanie Cap", 2499 / 100, "beanie", 100, true⟩,
   ⟨6, "Bucket Hat", 3599 / 100, "bucket", 40, false⟩]

/-- `seed_caps` (`src/seed_data.py` lines 9-111): skip when the `caps`
table is non-empty, otherwise insert the six sample rows. -/
def seed_caps (db : DB) : DB :=
  if db.caps.length > 0 then db else { db with caps := caps_data }

/-- Modelled from the spec: a later change to a Product's price. No
price-update endpoint exists in the source (the spec §3 says products are
created and mutated only by the out-of-scope seed/admin process); this
models such an external price update on the stored `caps` table. -/
def update_cap_price (db : DB) (cap_id : Nat) (new_price : ℚ) : DB :=
  { db with
      caps := db.caps.map (fun c =>
        if c.id == cap_id then { c with price := new_price } else c) }

/-! ## Helper lemmas about the validation and commit passes -/

/-- The `total_amount` accumulated by the validation loop is the sum of
`price × quantity` over the pending items it collects. -/
theorem validate_total (db : DB) (items : List OrderItemCreate) :
    ∀ t pend, create_order_validate db items = .ok (t, pend) →
      t = (pend.map (fun p => p.price * (p.quantity : ℚ))).sum := by
  induction items with
  | nil =>
    intro t pend h
    simp only [create_order_validate, Except.ok.injEq, Prod.mk.injEq] at h
    obtain ⟨h1, h2⟩ := h
    subst h1
    subst h2
    simp
  | cons item rest ih =>
    intro t pend h
    rw [create_order_validate] at h
    split at h
    · exact absurd h (by simp)
    · split at h
      · exact absurd h (by simp)
      · split at h
        · exact absurd h (by simp)
        · rename_i cap _ _ t0 pend0 hv
          simp only [Except.ok.injEq, Prod.mk.injEq] at h
          obtain ⟨h1, h2⟩ := h
          subst h1
          subst h2
          simp only [List.map_cons, List.sum_cons]
          rw [ih t0 pend0 hv]

/-- Each pending item collected by the validation loop snapshots the row the
lookup found: its `cap` field is the row `findCap` returns for its `cap_id`,
and its `price` is that row's price. -/
theorem validate_snapshot (db : DB) (items : List OrderItemCreate) :
    ∀ t pend, create_order_validate db items = .ok (t, pend) →
      ∀ p ∈ pend, findCap db p.cap_id = some p.cap ∧ p.price = p.cap.price := by
  induction items with
  | nil =>
    intro t pend h
    simp only [create_order_validate, Except.ok.injEq, Prod.mk.injEq] at h
    obtain ⟨_, h2⟩ := h
    subst h2
    intro p hp
    cases hp
  | cons item rest ih =>
    intro t pend h
    rw [create_order_validate] at h
    split at h
    · exact absurd h (by simp)
    · rename_i cap hf
      split at h
      · exact absurd h (by simp)
      · split at h
        · exact absurd h (by simp)
        · rename_i t0 pend0 hv
          simp only [Except.ok.injEq, Prod.mk.injEq] at h
          obtain ⟨_, h2⟩ := h
          subst h2
          intro p hp
          rcases List.mem_cons.mp hp with heq | hmem
          · subst heq
            have hf0 : db.caps.find? (fun c => c.id == item.cap_id) = some cap := hf
            have hid : cap.id = item.cap_id := by simpa using List.find?_some hf0
            exact ⟨by simpa [hid] using hf, rfl⟩
          · exact ih t0 pend0 hv p hmem

/-- If every cart line references an existing cap and some line's quantity
exceeds its referenced cap's stock, the validation loop raises the 400
"Not enough stock" exception. -/
theorem validate_insufficient (db : DB) (items : List OrderItemCreate)
    (hall : ∀ it ∈ items, (findCap db it.cap_id).isSome)
    (hbad : ∃ it ∈ items, ∃ c, findCap db it.cap_id = some c ∧
      c.stock_quantity < it.quantity) :
    ∃ name, create_order_validate db items
      = .error ⟨400, "Not enough stock for " ++ name⟩ := by
  induction items with
  | nil =>
    obtain ⟨it, hmem, _⟩ := hbad
    cases hmem
  | cons item rest ih =>
    obtain ⟨cap, hf⟩ := Option.isSome_iff_exists.mp (hall item (List.mem_cons_self _ _))
    by_cases hs : cap.stock_quantity < item.quantity
    · exact ⟨cap.name, by simp [create_order_validate, hf, hs]⟩
    · obtain ⟨it, hmem, c, hc, hlt⟩ := hbad
      rcases List.mem_cons.mp hmem with heq | hmem2
      · subst heq
        rw [hf] at hc
        cases hc
        exact absurd hlt hs
      · obtain ⟨name, hrec⟩ :=
          ih (fun x hx => hall x (List.mem_cons_of_mem _ hx)) ⟨it, hmem2, c, hc, hlt⟩
        exact ⟨name, by simp [create_order_validate, hf, hs, hrec]⟩

/-- The line totals of the inserted `OrderItem` rows are the line totals of
the pending items, independently of the assigned ids. -/
theorem mkItems_map_line_total (order_id : Nat) :
    ∀ (next_id : Nat) (pend : List PendingItem),
      (mkItems next_id order_id pend).map (fun it => it.price * (it.quantity : ℚ))
        = pend.map (fun p => p.price * (p.quantity : ℚ))
  | _, [] => rfl
  | n, p :: ps => by
    simp [mkItems, mkItems_map_line_total order_id (n + 1) ps]

/-- Every inserted `OrderItem` row carries the `cap_id`, `price` and
`quantity` of some pending item. -/
theorem mkItems_mem (order_id : Nat) :
    ∀ (next_id : Nat) (pend : List PendingItem) (it : OrderItem),
      it ∈ mkItems next_id order_id pend →
      ∃ p ∈ pend, it.cap_id = p.cap_id ∧ it.price = p.price ∧
        it.quantity = p.quantity := by
  intro next_id pend
  induction pend generalizing next_id with
  | nil =>
    intro it hit
    cases hit
  | cons p ps ih =>
    intro it hit
    rcases List.mem_cons.mp hit with heq | hmem
    · exact ⟨p, List.mem_cons_self _ _, by subst heq; exact ⟨rfl, rfl, rfl⟩⟩
    · obtain ⟨q, hq, hrest⟩ := ih (next_id + 1) it hmem
      exact ⟨q, List.mem_cons_of_mem _ hq, hrest⟩

/-! ## Concrete stores used to evaluate the operations -/

/-- A store with a single cap: id 1, price 10, stock 5. -/
def exDb : DB := ⟨[], [⟨1, "Cap", 10, "baseball", 5, false⟩], [], []⟩

/-- The authenticated caller in the examples. -/
def exUser : User := ⟨1, "a@x", "h", "A", none, none⟩

/-- A cart ordering two units of cap 1. -/
def exOrder : OrderCreate := ⟨[⟨1, 2⟩], "addr", "p"⟩

/-- The store `create_order exDb exUser exOrder` commits: stock 5 → 3, one
order of total 20, one order item at the captured price 10. -/
def exDb1 : DB :=
  ⟨[], [⟨1, "Cap", 10, "baseball", 3, false⟩],
   [⟨1, 1, 20, "pending", "addr", "p"⟩], [⟨1, 1, 1, 2, 10⟩]⟩

/-! ## Claims -/

/-- C1: for every cart accepted by `create_order`, the `total_amount` of the
created `Order` equals the sum over its `OrderItem` rows of
(captured item price × item quantity). -/
theorem create_order_total_eq_sum (db : DB) (u : User) (o : OrderCreate)
    (db1 : DB) (ord : Order) (items : List OrderItem)
    (h : create_order db u o = .ok (db1, ord, items)) :
    ord.total_amount = (items.map (fun it => it.price * (it.quantity : ℚ))).sum := by
  rw [create_order] at h
  split at h
  · exact absurd h (by simp)
  · rename_i t pend hv
    simp only [create_order_commit, Except.ok.injEq, Prod.mk.injEq] at h
    obtain ⟨_, h2, h3⟩ := h
    subst h2
    subst h3
    rw [mkItems_map_line_total]
    exact validate_total db o.items t pend hv

/-- C1 witness: the single-line cart `[{cap 1, qty 2}]` against a store with
price 10 produces an order of total 20 = 10 × 2. -/
theorem create_order_total_eq_sum_witness :
    (⟨1, 1, 20, "pending", "addr", "p"⟩ : Order).total_amount
      = (([⟨1, 1, 1, 2, 10⟩] : List OrderItem).map
          (fun it => it.price * (it.quantity : ℚ))).sum :=
  create_order_total_eq_sum exDb exUser exOrder exDb1
    ⟨1, 1, 20, "pending", "addr", "p"⟩ [⟨1, 1, 1, 2, 10⟩] (by decide)

/-- C2: the source performs no quantity-positivity check — the only per-line
test is `cap.stock_quantity < item.quantity`, which non-positive quantities
always pass. A zero-quantity line is accepted and committed (order total 0,
stock unchanged), and a negative-quantity line is accepted and committed,
*increasing* the product's stock (5 − (−3) = 8) — not rejected with an
InvalidArgument failure as the spec requires. -/
theorem create_order_accepts_nonpositive_quantity :
    create_order exDb exUser ⟨[⟨1, 0⟩], "addr", "p"⟩
      = .ok (⟨[], [⟨1, "Cap", 10, "baseball", 5, false⟩],
              [⟨1, 1, 0, "pending", "addr", "p"⟩], [⟨1, 1, 1, 0, 10⟩]⟩,
             ⟨1, 1, 0, "pending", "addr", "p"⟩, [⟨1, 1, 1, 0, 10⟩]) ∧
    create_order exDb exUser ⟨[⟨1, -3⟩], "addr", "p"⟩
      = .ok (⟨[], [⟨1, "Cap", 10, "baseball", 8, false⟩],
              [⟨1, 1, -30, "pending", "addr", "p"⟩], [⟨1, 1, 1, -3, 10⟩]⟩,
             ⟨1, 1, -30, "pending", "addr", "p"⟩, [⟨1, 1, 1, -3, 10⟩]) := by
  decide

/-- A store with a single cap holding its last unit: id 1, price 10,
stock 1. -/
def exDbOne : DB := ⟨[], [⟨1, "Cap", 10, "baseball", 1, false⟩], [], []⟩

/-- C3: the validation loop checks each cart line against the
un-decremented stock, so a cart whose lines individually fit but jointly
exceed stock is accepted: with stock 1, the cart
`[{cap 1, qty 1}, {cap 1, qty 1}]` passes validation and the commit pass
decrements the same row twice, leaving `stock_quantity = -1` — the
placement is not rejected and the non-negativity invariant is broken. -/
theorem create_order_drives_stock_negative :
    create_order exDbOne exUser ⟨[⟨1, 1⟩, ⟨1, 1⟩], "addr", "p"⟩
      = .ok (⟨[], [⟨1, "Cap", 10, "baseball", -1, false⟩],
              [⟨1, 1, 20, "pending", "addr", "p"⟩],
              [⟨1, 1, 1, 1, 10⟩, ⟨2, 1, 1, 1, 10⟩]⟩,
             ⟨1, 1, 20, "pending", "addr", "p"⟩,
             [⟨1, 1, 1, 1, 10⟩, ⟨2, 1, 1, 1, 10⟩]) ∧
    ((⟨1, "Cap", 10, "baseball", -1, false⟩ : Cap).stock_quantity < 0) := by
  decide

/-- C4: if every cart line references an existing cap and some line's
quantity exceeds its referenced cap's stock, `create_order` fails with the
400 "Not enough stock" exception raised during the validation pass, and the
store is unchanged: every product's stock is intact and no `Order` or
`OrderItem` rows are created. -/
theorem create_order_insufficient_stock_no_mutation (db : DB) (u : User)
    (o : OrderCreate)
    (hall : ∀ it ∈ o.items, (findCap db it.cap_id).isSome)
    (hbad : ∃ it ∈ o.items, ∃ c, findCap db it.cap_id = some c ∧
      c.stock_quantity < it.quantity) :
    (∃ name, create_order db u o = .error ⟨400, "Not enough stock for " ++ name⟩) ∧
    create_order_db db u o = db := by
  obtain ⟨name, hv⟩ := validate_insufficient db o.items hall hbad
  exact ⟨⟨name, by simp [create_order, hv]⟩, by simp [create_order_db, create_order, hv]⟩

/-- C4 witness: ordering 6 units of a cap that has 5 in stock fails with
the 400 stock error and leaves the store exactly as it was. -/
theorem create_order_insufficient_stock_no_mutation_witness :
    (∃ name, create_order exDb exUser ⟨[⟨1, 6⟩], "addr", "p"⟩
      = .error ⟨400, "Not enough stock for " ++ name⟩) ∧
    create_order_db exDb exUser ⟨[⟨1, 6⟩], "addr", "p"⟩ = exDb :=
  create_order_insufficient_stock_no_mutation exDb exUser ⟨[⟨1, 6⟩], "addr", "p"⟩
    (by decide)
    ⟨⟨1, 6⟩, by decide, ⟨1, "Cap", 10, "baseball", 5, false⟩, by decide, by decide⟩

/-- C5: every `OrderItem` created by `create_order` stores the price the
referenced cap had in the pre-call store (the placement-time snapshot), and
a later change to a cap's price touches only the `caps` table: the stored
`order_items` rows and `orders` rows (hence every stored item price and
order `total_amount`) are unchanged. -/
theorem order_item_price_snapshot (db : DB) (u : User) (o : OrderCreate)
    (db1 : DB) (ord : Order) (items : List OrderItem)
    (h : create_order db u o = .ok (db1, ord, items)) :
    (∀ it ∈ items, ∃ c, findCap db it.cap_id = some c ∧ it.price = c.price) ∧
    (∀ cap_id new_price,
      (update_cap_price db1 cap_id new_price).order_items = db1.order_items ∧
      (update_cap_price db1 cap_id new_price).orders = db1.orders) := by
  constructor
  · rw [create_order] at h
    split at h
    · exact absurd h (by simp)
    · rename_i t pend hv
      simp only [create_order_commit, Except.ok.injEq, Prod.mk.injEq] at h
      obtain ⟨_, _, h3⟩ := h
      subst h3
      intro it hit
      obtain ⟨p, hp, hcap, hprice, _⟩ := mkItems_mem _ _ pend it hit
      obtain ⟨hfind, hpc⟩ := validate_snapshot db o.items t pend hv p hp
      exact ⟨p.cap, by rw [hcap]; exact hfind, by rw [hprice, hpc]⟩
  · intro cap_id new_price
    exact ⟨rfl, rfl⟩

/-- C5 witness: the committed order item of the example cart captured
price 10, the price cap 1 had when the order was placed, and price updates
leave the stored order and item rows of the committed store untouched. -/
theorem order_item_price_snapshot_witness :
    (∀ it ∈ ([⟨1, 1, 1, 2, 10⟩] : List OrderItem),
      ∃ c, findCap exDb it.cap_id = some c ∧ it.price = c.price) ∧
    (∀ cap_id new_price,
      (update_cap_price exDb1 cap_id new_price).order_items = exDb1.order_items ∧
      (update_cap_price exDb1 cap_id new_price).orders = exDb1.orders) :=
  order_item_price_snapshot exDb exUser exOrder exDb1
    ⟨1, 1, 20, "pending", "addr", "p"⟩ [⟨1, 1, 1, 2, 10⟩] (by decide)

/-- A store whose `users` table holds exactly the example user. -/
def exDbUsers : DB := ⟨[exUser], [], [], []⟩

/-- C6: `register` with an email already present in the `users` table fails
with the 400 "Email already registered" exception, and the store is
unchanged — no row is inserted and no existing row is touched. -/
theorem register_duplicate_email_conflict (db : DB) (u : UserCreate)
    (h : ∃ du ∈ db.users, du.email = u.email) :
    register db u = .error ⟨400, "Email already registered"⟩ ∧
    register_db db u = db := by
  obtain ⟨du, hmem, he⟩ := h
  cases hfind : db.users.find? (fun x => x.email == u.email) with
  | none =>
    have hnone := List.find?_eq_none.mp hfind du hmem
    simp [he] at hnone
  | some x =>
    exact ⟨by simp [register, hfind], by simp [register_db, register, hfind]⟩

/-- C6 witness: registering the already-present email `a@x` fails with the
duplicate-email exception and leaves the store as it was. -/
theorem register_duplicate_email_conflict_witness :
    register exDbUsers ⟨"a@x", "pw", "B", none, none⟩
      = .error ⟨400, "Email already registered"⟩ ∧
    register_db exDbUsers ⟨"a@x", "pw", "B", none, none⟩ = exDbUsers :=
  register_duplicate_email_conflict exDbUsers ⟨"a@x", "pw", "B", none, none⟩
    ⟨exUser, by decide, rfl⟩

/-- First stored user of the authentication examples. -/
def userA : User := ⟨1, "a@x", hash_password "pwA", "A", none, none⟩

/-- Second stored user of the authentication examples. -/
def userB : User := ⟨2, "b@x", hash_password "pwB", "B", none, none⟩

/-- A store with the two example users. -/
def exDbAuth : DB := ⟨[userA, userB], [], [], []⟩

/-- C7: in the production variant, `login` for `userB` issues a token, yet
`get_current_user` accepts *every* token string — issued, expired-then-
presented, or altered in any byte — because it never inspects its argument,
and it always resolves to the first stored user (`userA`), not the user the
token was issued to. Expired and tampered tokens are accepted rather than
rejected with a 401, and a successful call can resolve to a different user
than the token's subject. -/
theorem get_current_user_ignores_token :
    login exDbAuth ⟨"b@x", "pwB"⟩ "2026-01-01T00:00:00"
      = .ok (create_access_token "b@x" "2026-01-01T00:00:00", userB) ∧
    (∀ token, get_current_user_prod exDbAuth token = .ok userA) ∧
    userA ≠ userB := by
  refine ⟨by decide, fun token => rfl, by decide⟩

/-- The store obtained by seeding an empty store with `seed_caps`. -/
def seededDb : DB := seed_caps ⟨[], [], [], []⟩

/-- C8: over the six seeded products, the page (offset 0, limit 2) returns
exactly the first two caps and the page (offset 2, limit 2) the next two,
both in ascending-id order and disjoint from each other; and for every
store and query, the page length never exceeds the given limit. -/
theorem get_caps_pagination :
    get_caps seededDb 0 2 none
      = [⟨1, "Classic Baseball Cap", 4599 / 100, "baseball", 50, true⟩,
         ⟨2, "Luxury Leather Cap", 12999 / 100, "luxury", 25, true⟩] ∧
    get_caps seededDb 2 2 none
      = [⟨3, "Snapback Cap", 3999 / 100, "snapback", 75, false⟩,
         ⟨4, "Trucker Hat", 3299 / 100, "trucker", 60, false⟩] ∧
    (get_caps seededDb 0 2 none).map Cap.id = [1, 2] ∧
    (get_caps seededDb 2 2 none).map Cap.id = [3, 4] ∧
    (∀ c ∈ get_caps seededDb 0 2 none, c ∉ get_caps seededDb 2 2 none) ∧
    (∀ (db : DB) (skip limit : Nat) (category : Option String),
      (get_caps db skip limit category).length ≤ limit) := by
  refine ⟨by decide, by decide, by decide, by decide, by decide, ?_⟩
  intro db skip limit category
  simp only [get_caps]
  exact List.length_take_le _ _

/-- The pending-items list both concurrent validations of the last-unit
cart produce. -/
def pendLast : List PendingItem := [⟨1, 1, 10, ⟨1, "Cap", 10, "baseball", 1, false⟩⟩]

/-- The last-unit cart: one unit of cap 1. -/
def cartLast : OrderCreate := ⟨[⟨1, 1⟩], "addr", "p"⟩

/-- A store with two users and one cap holding its last unit. -/
def exDbRace : DB := ⟨[userA, userB], [⟨1, "Cap", 10, "baseball", 1, false⟩], [], []⟩

/-- C9: `create_order` is the unguarded sequence `create_order_validate`
then `create_order_commit` with no transaction or lock, so under the
interleaving validate-A, validate-B, commit-A, commit-B — two concurrent
requests each validating against the same committed store before either
commits — both calls requesting the last unit pass validation and both
commit: two orders are created and the final stock is −1, not the
one-success / one-InsufficientStock / final-stock-0 outcome the claim
requires. -/
theorem concurrent_create_order_oversells :
    create_order_validate exDbRace cartLast.items = .ok (10, pendLast) ∧
    (create_order_commit
        (create_order_commit exDbRace userA cartLast 10 pendLast).1
        userB cartLast 10 pendLast).1
      = ⟨[userA, userB], [⟨1, "Cap", 10, "baseball", -1, false⟩],
         [⟨1, 1, 10, "pending", "addr", "p"⟩, ⟨2, 2, 10, "pending", "addr", "p"⟩],
         [⟨1, 1, 1, 1, 10⟩, ⟨2, 2, 1, 1, 10⟩]⟩ := by
  decide

/-- The digest model is injective, as collision-free hashing demands. -/
theorem sha256_hex_inj (a b : String) (h : sha256_hex a = sha256_hex b) : a = b := by
  have hd : ("sha256:" ++ a).data = ("sha256:" ++ b).data := congrArg String.data h
  rw [String.data_append, String.data_append] at hd
  exact String.ext ((List.append_right_inj _).mp hd)

/-- C10: hashing round-trips — `verify_password p (hash_password p)` holds
for every password — and registration round-trips with login: whenever
`register` succeeds, `login` with the same email and password against the
resulting store succeeds and issues a token for the created user, while
`login` with the same email and any different password fails with the 401
"Invalid credentials" exception. -/
theorem register_login_round_trip (db : DB) (u : UserCreate) (db1 : DB)
    (newU : User) (exp : String)
    (h : register db u = .ok (db1, newU)) :
    (∀ p, verify_password p (hash_password p) = true) ∧
    login db1 ⟨u.email, u.password⟩ exp
      = .ok (create_access_token u.email exp, newU) ∧
    (∀ p2, p2 ≠ u.password →
      login db1 ⟨u.email, p2⟩ exp = .error ⟨401, "Invalid credentials"⟩) := by
  have hv : ∀ p, verify_password p (hash_password p) = true := by
    intro p
    simp [verify_password, hash_password]
  rw [register] at h
  cases hfind : db.users.find? (fun x => x.email == u.email) with
  | some x =>
    rw [hfind] at h
    exact absurd h (by simp)
  | none =>
    rw [hfind] at h
    simp only [Except.ok.injEq, Prod.mk.injEq] at h
    obtain ⟨h1, h2⟩ := h
    subst h1
    subst h2
    refine ⟨hv, ?_, ?_⟩
    · simp [login, List.find?_append, hfind, verify_password, hash_password]
    · intro p2 hp2
      have hcond : ¬ (sha256_hex p2 = sha256_hex u.password) := fun hc =>
        hp2 (sha256_hex_inj _ _ hc)
      simp [login, List.find?_append, hfind, verify_password, hash_password, hcond]

/-- C10 witness: registering `a@x` with password `pw` on the empty store,
`login` with `pw` succeeds and issues the user's token, and any different
password is rejected with a 401. -/
theorem register_login_round_trip_witness :
    (∀ p, verify_password p (hash_password p) = true) ∧
    login ⟨[⟨1, "a@x", hash_password "pw", "A", none, none⟩], [], [], []⟩
        ⟨"a@x", "pw"⟩ "E"
      = .ok (create_access_token "a@x" "E",
             ⟨1, "a@x", hash_password "pw", "A", none, none⟩) ∧
    (∀ p2, p2 ≠ "pw" →
      login ⟨[⟨1, "a@x", hash_password "pw", "A", none, none⟩], [], [], []⟩
          ⟨"a@x", p2⟩ "E"
        = .error ⟨401, "Invalid credentials"⟩) :=
  register_login_round_trip ⟨[], [], [], []⟩ ⟨"a@x", "pw", "A", none, none⟩
    ⟨[⟨1, "a@x", hash_password "pw", "A", none, none⟩], [], [], []⟩
    ⟨1, "a@x", hash_password "pw", "A", none, none⟩ "E" (by decide)

end CapsStore
